import Mathlib

/-!
Verification development for the self-healing Cypress framework
(fingerprint capture, locator store, element matcher, healing orchestrator).

The TypeScript sources are shallowly embedded below:
* JS numbers are modelled by `ℚ` (all arithmetic the engine performs on
  scores/weights is exact decimal arithmetic); `Math.sqrt` — which the code
  only uses inside the position-similarity helper — is modelled by an
  explicit function parameter `sq : ℚ → ℚ` standing for the host runtime's
  square root.
* DOM elements are modelled by the record `ElemM` holding exactly the
  observable values the engine reads (tag, text, attributes, geometry,
  parent summary); `document.querySelectorAll` is modelled by a parameter
  `doc : String → Option (List ElemM)` where `none` means the query threw
  (malformed selector).
* A JS `Map` is modelled by an association list with JS `Map.set`
  semantics (in-place update of an existing key, append otherwise).
* `Date` timestamps are modelled by a `Nat` clock value.
-/

/-- Bounding-box geometry (`DOMRect` / the `position` capture). -/
structure Rect where
  x : ℚ
  y : ℚ
  width : ℚ
  height : ℚ
  deriving DecidableEq, Repr

/-- Embedding of `ParentInfo` from types.ts. -/
structure ParentInfo where
  tagName : String
  className : Option String
  id : Option String
  deriving DecidableEq, Repr

/-- Embedding of `ElementAttributes` from types.ts.  `none` models a JS `undefined`
field; the engine's truthiness tests treat `some ""` like `undefined`,
exactly as JS does. -/
structure ElementAttributes where
  tagName : Option String := none
  text : Option String := none
  innerText : Option String := none
  className : Option String := none
  id : Option String := none
  name : Option String := none
  placeholder : Option String := none
  title : Option String := none
  ariaLabel : Option String := none
  role : Option String := none
  type : Option String := none
  href : Option String := none
  src : Option String := none
  value : Option String := none
  dataAttributes : Option (List (String × String)) := none
  position : Option Rect := none
  parentInfo : Option ParentInfo := none
  deriving DecidableEq, Repr

/-- Embedding of `LocatorType` from types.ts.  `testId` is `'data-testid'`, `cy` is
`'data-cy'`, `cls` is `'class'`, `text` is the text-content strategy. -/
inductive LocatorType where
  | id
  | testId
  | cy
  | ariaLabel
  | text
  | css
  | xpath
  | cls
  | name
  | placeholder
  | title
  | role
  deriving DecidableEq, Repr

/-- Embedding of `LocatorStrategy` from types.ts. -/
structure LocatorStrategy where
  type : LocatorType
  value : String
  priority : Nat
  confidence : ℚ
  deriving DecidableEq, Repr

/-- Embedding of `ElementFingerprint` from types.ts (`lastSeen` is an optional clock
value, `healCount` the number recorded in the store). -/
structure ElementFingerprint where
  name : String
  primaryLocator : String
  alternativeLocators : List LocatorStrategy
  attributes : ElementAttributes
  lastSeen : Option Nat := none
  healCount : Nat
  deriving DecidableEq, Repr

/-- The runtime type of `MatchResult.matchedBy`: a locator kind or the
string `'similarity'`. -/
inductive MatchedBy where
  | strat (t : LocatorType)
  | similarity
  deriving DecidableEq, Repr

/-- Embedding of `HealingEvent` from types.ts.  The TS declaration types `strategy` as
`LocatorType`, but the orchestrator actually stores `result.matchedBy`,
which can be `'similarity'`; the embedding uses the runtime type. -/
structure HealingEvent where
  timestamp : Nat
  elementName : String
  originalLocator : String
  healedLocator : String
  strategy : MatchedBy
  confidence : ℚ
  testFile : String
  testName : String
  deriving DecidableEq, Repr

/-- The observable values `extractAttributes` reads from
`element.parentElement` (raw DOM strings, empty when absent). -/
structure ParentElem where
  tagName : String
  className : String
  id : String
  deriving DecidableEq, Repr

/-- Model of a live DOM element: exactly the observable values the engine
reads.  `attrs` is the element's attribute list (DOM attribute names are
unique on a real element; `getAttr` returns the first binding).
`textContent` is the raw text content before the engine trims it. -/
structure ElemM where
  tagName : String
  textContent : String
  innerText : String
  className : String
  id : String
  value : String
  attrs : List (String × String)
  rect : Rect
  parent : Option ParentElem := none
  deriving DecidableEq, Repr

/-- Embedding of `SelfHealingConfig` from types.ts. -/
structure SelfHealingConfig where
  enabled : Bool
  confidenceThreshold : ℚ
  maxAlternatives : Nat
  reportPath : String
  autoUpdateLocators : Bool
  deriving DecidableEq, Repr

/-- The default engine configuration (constructor defaults in index.ts). -/
def defaultConfig : SelfHealingConfig :=
  { enabled := true
    confidenceThreshold := 0.6
    maxAlternatives := 5
    reportPath := "cypress/reports/healing-report.json"
    autoUpdateLocators := false }

/-- The `{ testFile, testName }` context passed to `findElement`. -/
structure TestContext where
  testFile : String
  testName : String
  deriving DecidableEq, Repr

/-- JS truthiness of a string. -/
def truthyS (s : String) : Bool := s ≠ ""

/-- JS truthiness of an optional string (`undefined` and `""` are falsy). -/
def truthyO (o : Option String) : Bool := o.getD "" ≠ ""

/-- JS `String.prototype.trim()` (structural model: drop whitespace from
both ends). -/
def jsTrim (s : String) : String :=
  ⟨((s.data.dropWhile Char.isWhitespace).reverse.dropWhile Char.isWhitespace).reverse⟩

/-- JS `substring(0, n)` (structural model). -/
def jsTake (s : String) (n : Nat) : String := ⟨s.data.take n⟩

/-- JS `toLowerCase()` (structural model). -/
def jsToLower (s : String) : String := ⟨s.data.map Char.toLower⟩

/-- JS `includes(c)` for a single-character needle (structural model). -/
def jsContainsChar (s : String) (c : Char) : Bool := s.data.contains c

/-- JS `startsWith(p)` (structural model). -/
def jsStartsWith (s p : String) : Bool := p.data.isPrefixOf s.data

/-- JS `split(sep)` for a single-character separator (structural model;
`"a  b".split(' ') = ["a", "", "b"]`, `"".split(' ') = [""]`). -/
def jsSplitCharAux (sep : Char) : List Char → List Char → List String
  | [], acc => [⟨acc.reverse⟩]
  | c :: cs, acc =>
    if c = sep then ⟨acc.reverse⟩ :: jsSplitCharAux sep cs []
    else jsSplitCharAux sep cs (c :: acc)

/-- JS `s.split(sep)` for a one-character separator. -/
def jsSplitChar (sep : Char) (s : String) : List String := jsSplitCharAux sep s.data []

/-- JS `text.replace(/"/g, '\\"')` from `generateTextLocator`. -/
def escapeQuotes (s : String) : String :=
  ⟨s.data.foldr (fun c acc => if c = '"' then '\\' :: '"' :: acc else c :: acc) []⟩

/-- JS `Array.prototype.join(sep)` (structural model). -/
def joinSep (sep : String) : List String → String
  | [] => ""
  | [x] => x
  | x :: xs => x ++ sep ++ joinSep sep xs

/-- Embedding of `element.getAttribute(k)`: `some v` if the attribute is present,
`none` (JS `null`) otherwise. -/
def getAttr (e : ElemM) (k : String) : Option String :=
  (e.attrs.find? (fun p => p.1 = k)).map (fun p => p.2)

/-- JS `Map.get`. -/
def mapGet {α : Type} : List (String × α) → String → Option α
  | [], _ => none
  | p :: ps, k => if p.1 = k then some p.2 else mapGet ps k

/-- JS `Map.set`: update the existing key in place, else append. -/
def mapSet {α : Type} : List (String × α) → String → α → List (String × α)
  | [], k, v => [(k, v)]
  | p :: ps, k, v => if p.1 = k then (k, v) :: ps else p :: mapSet ps k v

/-- One inner-loop pass of the Levenshtein DP (element-matcher.ts,
`levenshteinDistance`): given the remaining characters `cs` of `str1`,
the remaining entries `ps` of the previous row (starting at column j),
the previous row's entry for column j-1 (`diag`), and the current row's
entry for column j-1 (`left`), produce the current row's entries from
column j on.  `v` mirrors
`min(m[i-1][j-1]+1, m[i][j-1]+1, m[i-1][j]+1)`. -/
def levRowAux (c2 : Char) : List Char → List Nat → Nat → Nat → List Nat
  | [], _, _, _ => []
  | _ :: _, [], _, _ => []
  | c1 :: cs, pj :: ps, diag, left =>
    let v := if c2 = c1 then diag else min (min (diag + 1) (left + 1)) (pj + 1)
    v :: levRowAux c2 cs ps pj v

/-- Row `i` of the DP matrix from row `i-1` (`prev`): `matrix[i] = [i]`
followed by the inner loop over `str1`. -/
def levNextRow (c2 : Char) (s1 : List Char) (prev : List Nat) (i : Nat) : List Nat :=
  i :: levRowAux c2 s1 (prev.drop 1) (prev.headD 0) i

/-- Embedding of `levenshteinDistance(str1, str2)` from element-matcher.ts: build row 0
as `[0, 1, ..., str1.length]`, fold the row update over the characters of
`str2` (row index `i` running from 1), and read `matrix[str2.length][str1.length]`. -/
def levenshteinDistance (str1 str2 : String) : Nat :=
  let s1 := str1.data
  let s2 := str2.data
  let row0 : List Nat := List.range (s1.length + 1)
  let lastRow := s2.enum.foldl (fun prev ic => levNextRow ic.2 s1 prev (ic.1 + 1)) row0
  lastRow.getD s1.length 0

/-- Embedding of `stringSimilarity(str1, str2)` from element-matcher.ts. -/
def stringSimilarity (str1 str2 : String) : ℚ :=
  if str1 = str2 then 1
  else if str1 = "" ∨ str2 = "" then 0
  else
    let longer := if str2.length < str1.length then str1 else str2
    let shorter := if str2.length < str1.length then str2 else str1
    if longer.length = 0 then 1
    else ((longer.length : ℚ) - (levenshteinDistance longer shorter : ℚ)) / (longer.length : ℚ)

/-- Embedding of `calculatePositionSimilarity(rect, target)` from element-matcher.ts.
`sq` is the host runtime's `Math.sqrt`. -/
def calculatePositionSimilarity (sq : ℚ → ℚ) (rect target : Rect) : ℚ :=
  let maxDistance : ℚ := 200
  let distance := sq ((rect.x - target.x) ^ 2 + (rect.y - target.y) ^ 2)
  let sizeMatch : ℚ :=
    if |rect.width - target.width| < 50 ∧ |rect.height - target.height| < 50 then 0.5 else 0
  let positionMatch := max 0 (1 - distance / maxDistance) * 0.5
  positionMatch + sizeMatch

/-- The eight similarity signals of `calculateSimilarityScore`. -/
inductive Signal where
  | text
  | ariaLabel
  | dataAttrs
  | placeholder
  | name
  | className
  | position
  | role
  deriving DecidableEq, Repr

/-- The fixed signal weights (the `weights` literal in
`calculateSimilarityScore`). -/
def weight : Signal → ℚ
  | .text => 0.25
  | .ariaLabel => 0.2
  | .dataAttrs => 0.15
  | .placeholder => 0.1
  | .name => 0.1
  | .className => 0.05
  | .position => 0.1
  | .role => 0.05

/-- Whether a signal's accumulation block fires for target attributes `t`
(the guard of the corresponding `if` in `calculateSimilarityScore`; the
data-attributes block additionally requires `dataCount > 0`). -/
def applicable (t : ElementAttributes) : Signal → Bool
  | .text => truthyO t.text
  | .ariaLabel => truthyO t.ariaLabel
  | .dataAttrs => t.dataAttributes.isSome && decide (0 < (t.dataAttributes.getD []).length)
  | .placeholder => truthyO t.placeholder
  | .name => truthyO t.name
  | .className => truthyO t.className
  | .position => t.position.isSome
  | .role => truthyO t.role

/-- The per-signal comparison score computed inside each block of
`calculateSimilarityScore` (element-matcher.ts lines 127-200). -/
def signalScore (sq : ℚ → ℚ) (e : ElemM) (t : ElementAttributes) : Signal → ℚ
  | .text => stringSimilarity (jsTrim e.textContent) (t.text.getD "")
  | .ariaLabel => if (getAttr e "aria-label").getD "" = t.ariaLabel.getD "" then 1 else 0
  | .dataAttrs =>
    let entries := t.dataAttributes.getD []
    let dataScore := (entries.filter (fun p => getAttr e p.1 = some p.2)).length
    (dataScore : ℚ) / (entries.length : ℚ)
  | .placeholder => if (getAttr e "placeholder").getD "" = t.placeholder.getD "" then 1 else 0
  | .name => if (getAttr e "name").getD "" = t.name.getD "" then 1 else 0
  | .className =>
    let elementClasses := (jsSplitChar ' ' e.className).dedup
    let targetClasses := (jsSplitChar ' ' (t.className.getD "")).dedup
    let intersection := targetClasses.filter (fun c => elementClasses.contains c)
    (intersection.length : ℚ) / (targetClasses.length : ℚ)
  | .position => calculatePositionSimilarity sq e.rect (t.position.getD ⟨0, 0, 0, 0⟩)
  | .role => if (getAttr e "role").getD "" = t.role.getD "" then 1 else 0

/-- One accumulation block of `calculateSimilarityScore`: when the guard
holds, add `score * weight` to `totalScore` (first component) and `weight`
to `totalWeight` (second component). -/
def condAdd (b : Bool) (s w : ℚ) (acc : ℚ × ℚ) : ℚ × ℚ :=
  if b then (acc.1 + s * w, acc.2 + w) else acc

/-- Embedding of `calculateSimilarityScore(element, target)` from element-matcher.ts:
the eight accumulation blocks in source order, then
`totalWeight > 0 ? totalScore / totalWeight : 0`. -/
def calculateSimilarityScore (sq : ℚ → ℚ) (e : ElemM) (t : ElementAttributes) : ℚ :=
  let acc1 := condAdd (applicable t .text) (signalScore sq e t .text) 0.25 (0, 0)
  let acc2 := condAdd (applicable t .ariaLabel) (signalScore sq e t .ariaLabel) 0.2 acc1
  let acc3 := condAdd (applicable t .dataAttrs) (signalScore sq e t .dataAttrs) 0.15 acc2
  let acc4 := condAdd (applicable t .placeholder) (signalScore sq e t .placeholder) 0.1 acc3
  let acc5 := condAdd (applicable t .name) (signalScore sq e t .name) 0.1 acc4
  let acc6 := condAdd (applicable t .className) (signalScore sq e t .className) 0.05 acc5
  let acc7 := condAdd (applicable t .position) (signalScore sq e t .position) 0.1 acc6
  let acc8 := condAdd (applicable t .role) (signalScore sq e t .role) 0.05 acc7
  if 0 < acc8.2 then acc8.1 / acc8.2 else 0

/-- The signals in the order their blocks appear in the source. -/
def allSignals : List Signal :=
  [.text, .ariaLabel, .dataAttrs, .placeholder, .name, .className, .position, .role]

/-- The signals applicable to target attributes `t`. -/
def applicableSignals (t : ElementAttributes) : List Signal :=
  allSignals.filter (applicable t)

/-- Sum of the weights of the applicable signals. -/
def weightSum (t : ElementAttributes) : ℚ :=
  ((applicableSignals t).map weight).sum

/-- Weighted sum of the per-signal scores over the applicable signals. -/
def weightedScoreSum (sq : ℚ → ℚ) (e : ElemM) (t : ElementAttributes) : ℚ :=
  ((applicableSignals t).map (fun k => signalScore sq e t k * weight k)).sum

/-- Embedding of `MatchResult` from element-matcher.ts. -/
structure MatchResult where
  element : Option ElemM
  locator : Option LocatorStrategy
  confidence : ℚ
  matchedBy : MatchedBy
  deriving DecidableEq, Repr

/-- Embedding of `findBestMatch(elements, targetAttributes)`: highest similarity scorer
(strictly better than the running best, which starts at `null`/0). -/
def findBestMatch (sq : ℚ → ℚ) (elements : List ElemM) (target : ElementAttributes) :
    Option ElemM × ℚ :=
  elements.foldl
    (fun best el =>
      let score := calculateSimilarityScore sq el target
      if best.2 < score then (some el, score) else best)
    (none, 0)

/-- Embedding of `findBySimilarity(targetAttributes)`: full-document scan over the
fingerprint's tag name.  The result is paired with the list of selectors
queried; `Except.error` models the (unguarded) `querySelectorAll` throw
propagating out. -/
def findBySimilarity (doc : String → Option (List ElemM)) (sq : ℚ → ℚ)
    (target : ElementAttributes) : Except Unit MatchResult × List String :=
  if ¬ truthyO target.tagName then (.ok ⟨none, none, 0, .similarity⟩, [])
  else
    match doc (target.tagName.getD "") with
    | none => (.error (), [target.tagName.getD ""])
    | some candidates =>
      let best := findBestMatch sq candidates target
      (.ok ⟨best.1, none, best.2, .similarity⟩, [target.tagName.getD ""])

/-- The `for (const locator of fingerprint.alternativeLocators)` loop of
`ElementMatcher.findElement`, followed by the similarity fallback.  A
query that throws (`doc _ = none`) is caught and the loop continues.
Exactly one result accepts immediately at the strategy's static
confidence; more than one result disambiguates via `findBestMatch` and
accepts only at or above the threshold.  The second component is the
list of selectors queried, in order. -/
def tryLocators (doc : String → Option (List ElemM)) (sq : ℚ → ℚ) (thr : ℚ)
    (fp : ElementFingerprint) :
    List LocatorStrategy → Except Unit MatchResult × List String
  | [] => findBySimilarity doc sq fp.attributes
  | l :: rest =>
    match doc l.value with
    | none =>
      let r := tryLocators doc sq thr fp rest
      (r.1, l.value :: r.2)
    | some elements =>
      match elements with
      | [e] => (.ok ⟨some e, some l, l.confidence, .strat l.type⟩, [l.value])
      | _ =>
        if 1 < elements.length then
          let best := findBestMatch sq elements fp.attributes
          if thr ≤ best.2 then (.ok ⟨best.1, some l, best.2, .strat l.type⟩, [l.value])
          else
            let r := tryLocators doc sq thr fp rest
            (r.1, l.value :: r.2)
        else
          let r := tryLocators doc sq thr fp rest
          (r.1, l.value :: r.2)

/-- Embedding of `ElementMatcher.findElement(fingerprint)`. -/
def matcherFindElement (doc : String → Option (List ElemM)) (sq : ℚ → ℚ) (thr : ℚ)
    (fp : ElementFingerprint) : Except Unit MatchResult × List String :=
  tryLocators doc sq thr fp fp.alternativeLocators

/-- JS `x || undefined` for a string `x`. -/
def strOrNone (s : String) : Option String := if s = "" then none else some s

/-- JS `element.getAttribute(k) || undefined`. -/
def attrOrNone (e : ElemM) (k : String) : Option String :=
  strOrNone ((getAttr e k).getD "")

/-- Embedding of `extractAttributes(element)` from element-fingerprint.ts.  The
`data-*` object is built by assignment in attribute order (`mapSet` fold),
matching JS object-key semantics. -/
def extractAttributes (e : ElemM) : ElementAttributes :=
  let dataAttributes : List (String × String) :=
    e.attrs.foldl (fun m a => if jsStartsWith a.1 "data-" then mapSet m a.1 a.2 else m) []
  let parentInfo : Option ParentInfo :=
    e.parent.map (fun p =>
      { tagName := jsToLower p.tagName
        className := strOrNone p.className
        id := strOrNone p.id })
  { tagName := some (jsToLower e.tagName)
    text := strOrNone (jsTake (jsTrim e.textContent) 100)
    innerText := strOrNone (jsTake (jsTrim e.innerText) 100)
    className := strOrNone e.className
    id := strOrNone e.id
    name := attrOrNone e "name"
    placeholder := attrOrNone e "placeholder"
    title := attrOrNone e "title"
    ariaLabel := attrOrNone e "aria-label"
    role := attrOrNone e "role"
    type := attrOrNone e "type"
    href := attrOrNone e "href"
    src := attrOrNone e "src"
    value := strOrNone e.value
    dataAttributes := if 0 < dataAttributes.length then some dataAttributes else none
    position := some e.rect
    parentInfo := parentInfo }

/-- Embedding of `generateTextLocator(tagName, text)` from element-fingerprint.ts.
Every branch of the source `switch` returns a string; the `null` typing is
never exercised. -/
def generateTextLocator (tagName text : String) : Option String :=
  let safeText := escapeQuotes text
  match tagName with
  | "button" => some ("button:contains(\"" ++ safeText ++ "\")")
  | "a" => some ("a:contains(\"" ++ safeText ++ "\")")
  | "label" => some ("label:contains(\"" ++ safeText ++ "\")")
  | _ => some (tagName ++ ":contains(\"" ++ safeText ++ "\")")

/-- Embedding of `generateContextualCss(element, attributes)` from
element-fingerprint.ts (the `element` parameter is unused in the source;
only `attributes` is read). -/
def generateContextualCss (a : ElementAttributes) : Option String :=
  let parentId := a.parentInfo.bind (fun p => p.id)
  let parentClass := a.parentInfo.bind (fun p => p.className)
  let parts0 : List String := []
  let parts1 :=
    if truthyO parentId then parts0 ++ ["#" ++ parentId.getD ""]
    else if truthyO parentClass then
      let firstClass := (jsSplitChar ' ' (parentClass.getD "")).headD ""
      if truthyS firstClass then parts0 ++ ["." ++ firstClass] else parts0
    else parts0
  let elementSelector0 := a.tagName.getD ""
  let elementSelector :=
    if truthyO a.type then elementSelector0 ++ "[type=\"" ++ a.type.getD "" ++ "\"]"
    else elementSelector0
  let parts := if truthyS elementSelector then parts1 ++ [elementSelector] else parts1
  if 0 < parts.length then some (joinSep " > " parts) else none

/-- Embedding of `attributes.dataAttributes?.[k]` (JS object index under optional
chaining). -/
def dataLookup (a : ElementAttributes) (k : String) : Option String :=
  a.dataAttributes.bind (fun l => mapGet l k)

/-- The candidate list built by the sequence of conditional `push` calls
in `generateAlternativeLocators`, in source order. -/
def locatorCandidates (e : ElemM) (a : ElementAttributes) : List LocatorStrategy :=
  (if truthyO (dataLookup a "data-testid") then
    [{ type := .testId, value := "[data-testid=\"" ++ (dataLookup a "data-testid").getD "" ++ "\"]"
       priority := 1, confidence := 0.95 }] else [])
  ++ (if truthyO (dataLookup a "data-cy") then
    [{ type := .cy, value := "[data-cy=\"" ++ (dataLookup a "data-cy").getD "" ++ "\"]"
       priority := 2, confidence := 0.95 }] else [])
  ++ (if truthyO a.id then
    [{ type := .id, value := "#" ++ a.id.getD "", priority := 3, confidence := 0.9 }] else [])
  ++ (if truthyO a.ariaLabel then
    [{ type := .ariaLabel, value := "[aria-label=\"" ++ a.ariaLabel.getD "" ++ "\"]"
       priority := 4, confidence := 0.85 }] else [])
  ++ (if truthyO a.name then
    [{ type := .name, value := "[name=\"" ++ a.name.getD "" ++ "\"]"
       priority := 5, confidence := 0.8 }] else [])
  ++ (if truthyO a.placeholder then
    [{ type := .placeholder, value := "[placeholder=\"" ++ a.placeholder.getD "" ++ "\"]"
       priority := 6, confidence := 0.75 }] else [])
  ++ (if truthyO a.role && truthyO a.text then
    [{ type := .role, value := "[role=\"" ++ a.role.getD "" ++ "\"]"
       priority := 7, confidence := 0.7 }] else [])
  ++ (if truthyO a.text && decide ((a.text.getD "").length < 50) then
    (match generateTextLocator (jsToLower e.tagName) (a.text.getD "") with
     | some textLocator => [{ type := .text, value := textLocator, priority := 8, confidence := 0.7 }]
     | none => [])
    else [])
  ++ (if truthyO a.className && !jsContainsChar (a.className.getD "") ' ' then
    [{ type := .cls, value := "." ++ a.className.getD "", priority := 9, confidence := 0.5 }] else [])
  ++ (match generateContextualCss a with
    | some cssWithContext =>
      [{ type := .css, value := cssWithContext, priority := 10, confidence := 0.6 }]
    | none => [])

/-- The sort comparator `(a, b) => a.priority - b.priority`. -/
def priorityLE (x y : LocatorStrategy) : Prop := x.priority ≤ y.priority

instance : DecidableRel priorityLE := fun x y => Nat.decLe x.priority y.priority

instance : IsTotal LocatorStrategy priorityLE := ⟨fun x y => Nat.le_total x.priority y.priority⟩

instance : IsTrans LocatorStrategy priorityLE := ⟨fun _ _ _ => Nat.le_trans⟩

/-- Embedding of `generateAlternativeLocators(element, attributes)`: the candidate list
sorted ascending by priority (`locators.sort((a, b) => a.priority - b.priority)`,
a stable comparison sort). -/
def generateAlternativeLocators (e : ElemM) (a : ElementAttributes) : List LocatorStrategy :=
  List.insertionSort priorityLE (locatorCandidates e a)

/-- Embedding of `captureElementFingerprint(element, name, primaryLocator)` from
element-fingerprint.ts. -/
def captureElementFingerprint (e : ElemM) (name primaryLocator : String) (now : Nat) :
    ElementFingerprint :=
  let attributes := extractAttributes e
  let alternativeLocators := generateAlternativeLocators e attributes
  { name := name
    primaryLocator := primaryLocator
    alternativeLocators := alternativeLocators
    attributes := attributes
    lastSeen := some now
    healCount := 0 }

/-- The `LocatorStore` state: the fingerprint `Map` (as an insertion-order
association list) and the healing-event array. -/
structure StoreState where
  fingerprints : List (String × ElementFingerprint)
  healingEvents : List HealingEvent
  deriving DecidableEq, Repr

/-- A freshly constructed store. -/
def emptyStore : StoreState := ⟨[], []⟩

/-- Embedding of `LocatorStore.saveFingerprint`. -/
def saveFingerprint (s : StoreState) (fp : ElementFingerprint) : StoreState :=
  { s with fingerprints := mapSet s.fingerprints fp.name fp }

/-- Embedding of `LocatorStore.getFingerprint`. -/
def getFingerprint (s : StoreState) (name : String) : Option ElementFingerprint :=
  mapGet s.fingerprints name

/-- Embedding of `LocatorStore.hasFingerprint`. -/
def hasFingerprint (s : StoreState) (name : String) : Bool :=
  (mapGet s.fingerprints name).isSome

/-- Embedding of `LocatorStore.recordHealingEvent`: append the event, then increment
the heal count of the referenced fingerprint (when present). -/
def recordHealingEvent (s : StoreState) (ev : HealingEvent) : StoreState :=
  let s1 : StoreState := { s with healingEvents := s.healingEvents ++ [ev] }
  match mapGet s1.fingerprints ev.elementName with
  | none => s1
  | some fp =>
    { s1 with
      fingerprints :=
        mapSet s1.fingerprints ev.elementName { fp with healCount := fp.healCount + 1 } }

/-- Embedding of `LocatorStore.getHealingEvents` (the source returns a copy). -/
def getHealingEvents (s : StoreState) : List HealingEvent := s.healingEvents

/-- Embedding of `LocatorStore.getAllFingerprints` (`Array.from(map.values())`,
insertion order). -/
def getAllFingerprints (s : StoreState) : List ElementFingerprint :=
  s.fingerprints.map (fun p => p.2)

/-- The serializable snapshot produced by `LocatorStore.export`. -/
structure StoreData where
  fingerprints : List ElementFingerprint
  healingEvents : List HealingEvent
  deriving DecidableEq, Repr

/-- Embedding of `LocatorStore.export`. -/
def exportStore (s : StoreState) : StoreData :=
  { fingerprints := getAllFingerprints s, healingEvents := getHealingEvents s }

/-- Embedding of `LocatorStore.import`: `set` each fingerprint under its own name,
replace the event array. -/
def importStore (s : StoreState) (data : StoreData) : StoreState :=
  { fingerprints := data.fingerprints.foldl (fun m fp => mapSet m fp.name fp) s.fingerprints
    healingEvents := data.healingEvents }

/-- The failures `SelfHealingEngine` can raise (index.ts `throw new Error`
sites), plus the uncaught selector exception. -/
inductive HealErr where
  | selectorThrew (selector : String)
  | notFoundDisabled (primaryLocator : String)
  | noFingerprint (elementName primaryLocator : String)
  | lowConfidence (elementName : String) (confidence threshold : ℚ)
  deriving DecidableEq, Repr

/-- The message of the no-fingerprint error thrown in `healAndFind`. -/
def noFingerprintMessage (elementName primaryLocator : String) : String :=
  "Element \"" ++ elementName ++
    "\" not found and no fingerprint available for self-healing. Original locator: " ++
    primaryLocator

/-- Embedding of `SelfHealingEngine.healAndFind(primaryLocator, elementName, context)`.
Returns the outcome, the resulting store state, and the list of selectors
queried (in order) during healing. -/
def healAndFindM (cfg : SelfHealingConfig) (doc : String → Option (List ElemM)) (sq : ℚ → ℚ)
    (now : Nat) (ctx : TestContext) (s : StoreState) (primaryLocator elementName : String) :
    Except HealErr ElemM × StoreState × List String :=
  match getFingerprint s elementName with
  | none => (.error (.noFingerprint elementName primaryLocator), s, [])
  | some fingerprint =>
    match matcherFindElement doc sq cfg.confidenceThreshold fingerprint with
    | (.error _, qs) =>
      (.error (.selectorThrew (fingerprint.attributes.tagName.getD "")), s, qs)
    | (.ok result, qs) =>
      match result.element with
      | none => (.error (.lowConfidence elementName result.confidence cfg.confidenceThreshold), s, qs)
      | some el =>
        if result.confidence < cfg.confidenceThreshold then
          (.error (.lowConfidence elementName result.confidence cfg.confidenceThreshold), s, qs)
        else
          let healedLocatorValue := (result.locator.map (fun l => l.value)).getD ""
          let healingEvent : HealingEvent :=
            { timestamp := now
              elementName := elementName
              originalLocator := primaryLocator
              healedLocator := if truthyS healedLocatorValue then healedLocatorValue
                else "similarity-based"
              strategy := result.matchedBy
              confidence := result.confidence
              testFile := ctx.testFile
              testName := ctx.testName }
          let s1 := recordHealingEvent s healingEvent
          -- JS aliasing: the local `fingerprint` is the very object stored in the
          -- map, which `recordHealingEvent` has just mutated (`healCount++`), so
          -- the spread `{...fingerprint, healCount: fingerprint.healCount + 1}`
          -- reads the already-incremented count.  In this value-passing model
          -- that read is the store lookup after the event was recorded.
          let fingerprint1 := (getFingerprint s1 elementName).getD fingerprint
          let updatedFingerprint :=
            { fingerprint1 with healCount := fingerprint1.healCount + 1, lastSeen := some now }
          (.ok el, saveFingerprint s1 updatedFingerprint, qs)

/-- Embedding of `SelfHealingEngine.findElement(primaryLocator, elementName, context)`:
try the primary locator; exactly one match re-captures and saves the
fingerprint; otherwise heal (or fail if healing is disabled).  The third
component lists every selector passed to `document.querySelectorAll`, in
order. -/
def findElementM (cfg : SelfHealingConfig) (doc : String → Option (List ElemM)) (sq : ℚ → ℚ)
    (now : Nat) (ctx : TestContext) (s : StoreState) (primaryLocator elementName : String) :
    Except HealErr ElemM × StoreState × List String :=
  match doc primaryLocator with
  | none => (.error (.selectorThrew primaryLocator), s, [primaryLocator])
  | some primaryResult =>
    match primaryResult with
    | [element] =>
      let fingerprint := captureElementFingerprint element elementName primaryLocator now
      (.ok element, saveFingerprint s fingerprint, [primaryLocator])
    | _ =>
      if ¬ cfg.enabled then (.error (.notFoundDisabled primaryLocator), s, [primaryLocator])
      else
        let r := healAndFindM cfg doc sq now ctx s primaryLocator elementName
        (r.1, r.2.1, primaryLocator :: r.2.2)

def sqZero : ℚ → ℚ := fun _ => 0

def wAttrsC8 : ElementAttributes := { text := some "ab", ariaLabel := some "x" }

def wElemC8 : ElemM :=
  { tagName := "div", textContent := "ab", innerText := "", className := "", id := "",
    value := "", attrs := [("aria-label", "y")], rect := ⟨0, 0, 0, 0⟩ }

def wElemC8' : ElemM := { wElemC8 with attrs := [("aria-label", "x")] }

instance exceptDecEq {eps alpha : Type} [DecidableEq eps] [DecidableEq alpha] :
    DecidableEq (Except eps alpha) := fun a b =>
  match a, b with
  | .ok x, .ok y =>
    if h : x = y then .isTrue (by rw [h]) else .isFalse (by intro hh; cases hh; exact h rfl)
  | .error x, .error y =>
    if h : x = y then .isTrue (by rw [h]) else .isFalse (by intro hh; cases hh; exact h rfl)
  | .ok _, .error _ => .isFalse (by intro hh; cases hh)
  | .error _, .ok _ => .isFalse (by intro hh; cases hh)

def wElemC2 : ElemM :=
  { tagName := "div", textContent := "ax", innerText := "", className := "", id := "",
    value := "", attrs := [], rect := ⟨0, 0, 0, 0⟩ }

def wFpC2 : ElementFingerprint :=
  { name := "x", primaryLocator := "#x", alternativeLocators := [],
    attributes := { tagName := some "div", text := some "ab" },
    lastSeen := none, healCount := 0 }

def wDocC2 : String → Option (List ElemM) :=
  fun s => if s = "div" then some [wElemC2] else some []

/-- The per-kind emission guard of `generateAlternativeLocators`
(the condition of the corresponding `push`). -/
def strategyPrecond : LocatorType → ElementAttributes → Bool
  | .testId, a => truthyO (dataLookup a "data-testid")
  | .cy, a => truthyO (dataLookup a "data-cy")
  | .id, a => truthyO a.id
  | .ariaLabel, a => truthyO a.ariaLabel
  | .name, a => truthyO a.name
  | .placeholder, a => truthyO a.placeholder
  | .role, a => truthyO a.role && truthyO a.text
  | .text, a => truthyO a.text && decide ((a.text.getD "").length < 50)
  | .cls, a => truthyO a.className && !jsContainsChar (a.className.getD "") ' '
  | .css, a => (generateContextualCss a).isSome
  | .xpath, _ => false
  | .title, _ => false

def wElemC5 : ElemM :=
  { tagName := "DIV", textContent := "", innerText := "", className := "a\tb", id := "",
    value := "", attrs := [], rect := ⟨0, 0, 0, 0⟩, parent := none }

def wCtx : TestContext := ⟨"demo.cy.ts", "login"⟩

def wLocC1 : LocatorStrategy := ⟨.testId, "[data-testid=\"login\"]", 1, 0.95⟩

def wElemC1 : ElemM :=
  { tagName := "BUTTON", textContent := "", innerText := "", className := "", id := "",
    value := "", attrs := [("data-testid", "login")], rect := ⟨0, 0, 0, 0⟩ }

def wFpC1 : ElementFingerprint :=
  { name := "loginButton", primaryLocator := "#login-btn", alternativeLocators := [wLocC1],
    attributes := { tagName := some "button" }, lastSeen := some 0, healCount := 0 }

def wStoreC1 : StoreState := ⟨[("loginButton", wFpC1)], []⟩

def wDocC1 : String → Option (List ElemM) :=
  fun sel => if sel = "[data-testid=\"login\"]" then some [wElemC1] else some []

def wElemC3 : ElemM :=
  { tagName := "BUTTON", textContent := "", innerText := "", className := "", id := "btn",
    value := "", attrs := [], rect := ⟨0, 0, 0, 0⟩ }

def wFpC3 : ElementFingerprint :=
  { name := "btn", primaryLocator := "#btn", alternativeLocators := [], attributes := {},
    lastSeen := some 3, healCount := 5 }

def wStoreC3 : StoreState := ⟨[("btn", wFpC3)], []⟩

def wDocC3 : String → Option (List ElemM) :=
  fun sel => if sel = "#btn" then some [wElemC3] else some []

/-- The store invariant every reachable store satisfies: fingerprint map
keys are distinct and each entry is stored under its fingerprint's own
name. -/
def FpMapWF (m : List (String × ElementFingerprint)) : Prop :=
  (m.map (fun p => p.1)).Nodup ∧ ∀ p ∈ m, p.2.name = p.1

def StoreWF (s : StoreState) : Prop := FpMapWF s.fingerprints

def wFpA : ElementFingerprint :=
  { name := "a", primaryLocator := "#a", alternativeLocators := [], attributes := {},
    lastSeen := none, healCount := 0 }

def wFpB : ElementFingerprint :=
  { name := "b", primaryLocator := "#b", alternativeLocators := [], attributes := {},
    lastSeen := some 4, healCount := 1 }

def wEvC10 : HealingEvent :=
  { timestamp := 1, elementName := "a", originalLocator := "#a", healedLocator := "sim",
    strategy := .similarity, confidence := 1, testFile := "f", testName := "t" }

def wStoreC10 : StoreState := ⟨[("a", wFpA), ("b", wFpB)], [wEvC10]⟩

theorem mapGet_mapSet_self {α : Type} (m : List (String × α)) (k : String) (v : α) :
    mapGet (mapSet m k v) k = some v := by
  induction m with
  | nil => simp [mapSet, mapGet]
  | cons p ps ih =>
    by_cases h : p.1 = k
    · simp [mapSet, h, mapGet]
    · simp [mapSet, h, mapGet, ih]

theorem mapGet_mapSet_ne {α : Type} (m : List (String × α)) (k k' : String) (v : α)
    (h : k ≠ k') : mapGet (mapSet m k v) k' = mapGet m k' := by
  induction m with
  | nil => simp [mapSet, mapGet, h]
  | cons p ps ih =>
    by_cases hp : p.1 = k
    · simp [mapSet, hp, mapGet, h, hp ▸ h]
    · by_cases hp' : p.1 = k'
      · have hk : ¬(k' = k) := fun hh => h hh.symm
        simp [mapSet, hp, mapGet, hp', hk]
      · simp [mapSet, hp, mapGet, hp', ih]

theorem foldl_condAdd (p : Signal → Bool) (f w : Signal → ℚ) :
    ∀ (l : List Signal) (acc : ℚ × ℚ),
      l.foldl (fun a k => condAdd (p k) (f k) (w k) a) acc =
        (acc.1 + ((l.filter p).map (fun k => f k * w k)).sum,
         acc.2 + ((l.filter p).map w).sum) := by
  intro l
  induction l with
  | nil => intro acc; simp
  | cons k ks ih =>
    intro acc
    rw [List.foldl_cons, ih]
    by_cases hk : p k
    · simp only [condAdd, hk, if_true, List.filter_cons, List.map_cons, List.sum_cons,
        Prod.mk.injEq]
      constructor <;> ring
    · simp [condAdd, hk, List.filter_cons]

/-- The accumulator chain of `calculateSimilarityScore` is the fold of
`condAdd` over the signal list. -/
theorem calculateSimilarityScore_eq_foldl (sq : ℚ → ℚ) (e : ElemM) (t : ElementAttributes) :
    calculateSimilarityScore sq e t =
      (let acc := allSignals.foldl
        (fun a k => condAdd (applicable t k) (signalScore sq e t k) (weight k) a) (0, 0)
      if 0 < acc.2 then acc.1 / acc.2 else 0) := rfl

/-- The score `calculateSimilarityScore` equals the renormalized weighted sum over
the applicable signals. -/
theorem calcScore_formula (sq : ℚ → ℚ) (e : ElemM) (t : ElementAttributes) :
    calculateSimilarityScore sq e t =
      if 0 < weightSum t then weightedScoreSum sq e t / weightSum t else 0 := by
  rw [calculateSimilarityScore_eq_foldl,
    foldl_condAdd (applicable t) (signalScore sq e t) weight allSignals (0, 0)]
  simp [weightSum, weightedScoreSum, applicableSignals]

theorem weight_nonneg (k : Signal) : 0 ≤ weight k := by
  cases k <;> norm_num [weight]

theorem weightSum_nonneg (t : ElementAttributes) : 0 ≤ weightSum t := by
  refine List.sum_nonneg ?_
  intro x hx
  obtain ⟨k, _, rfl⟩ := List.mem_map.mp hx
  exact weight_nonneg k

theorem strLength_pos (s : String) (h : s ≠ "") : 0 < s.length := by
  cases s with
  | mk data =>
    cases data with
    | nil => exact absurd rfl h
    | cons c cs => simp [String.length]

theorem levRowAux_length (c2 : Char) :
    ∀ (cs : List Char) (ps : List Nat) (diag left : Nat),
      (levRowAux c2 cs ps diag left).length = min cs.length ps.length := by
  intro cs
  induction cs with
  | nil => intro ps diag left; simp [levRowAux]
  | cons c1 cs ih =>
    intro ps diag left
    cases ps with
    | nil => simp [levRowAux]
    | cons pj ps' => simp [levRowAux, ih]; omega

theorem levRowAux_getD (c2 : Char) :
    ∀ (cs : List Char) (ps : List Nat) (diag left i j0 : Nat),
      1 ≤ i →
      diag ≤ max (i - 1) j0 →
      left ≤ max i j0 →
      (∀ k, k < ps.length → ps.getD k 0 ≤ max (i - 1) (j0 + 1 + k)) →
      ∀ k, k < (levRowAux c2 cs ps diag left).length →
        (levRowAux c2 cs ps diag left).getD k 0 ≤ max i (j0 + 1 + k) := by
  intro cs
  induction cs with
  | nil => intro ps diag left i j0 _ _ _ _ k hk; simp [levRowAux] at hk
  | cons c1 cs ih =>
    intro ps diag left i j0 hi hd hl hp k hk
    cases ps with
    | nil => simp [levRowAux] at hk
    | cons pj ps' =>
      have hpj : pj ≤ max (i - 1) (j0 + 1) := by
        have h0 := hp 0 (by simp)
        simp at h0
        omega
      have hv : (if c2 = c1 then diag else min (min (diag + 1) (left + 1)) (pj + 1)) ≤
          max i (j0 + 1) := by
        split
        · omega
        · omega
      cases k with
      | zero => simpa [levRowAux] using hv
      | succ k =>
        have hp' : ∀ k, k < ps'.length → ps'.getD k 0 ≤ max (i - 1) (j0 + 1 + 1 + k) := by
          intro m hm
          have h1 := hp (m + 1) (by simpa using Nat.succ_lt_succ hm)
          have h2 : (pj :: ps').getD (m + 1) 0 = ps'.getD m 0 := rfl
          rw [h2] at h1
          have h3 : j0 + 1 + (m + 1) = j0 + 1 + 1 + m := by omega
          rw [h3] at h1
          exact h1
        have hk' : k < (levRowAux c2 cs ps' pj
            (if c2 = c1 then diag else min (min (diag + 1) (left + 1)) (pj + 1))).length := by
          simp only [levRowAux, List.length_cons] at hk
          omega
        have := ih ps' pj
          (if c2 = c1 then diag else min (min (diag + 1) (left + 1)) (pj + 1)) i (j0 + 1)
          hi hpj hv hp' k hk'
        have hgoal : (levRowAux c2 (c1 :: cs) (pj :: ps') diag left).getD (k + 1) 0 =
            (levRowAux c2 cs ps' pj
              (if c2 = c1 then diag else min (min (diag + 1) (left + 1)) (pj + 1))).getD k 0 := rfl
        rw [hgoal]
        have h4 : j0 + 1 + (k + 1) = j0 + 1 + 1 + k := by omega
        rw [h4]
        exact this

theorem levNextRow_bound (c2 : Char) (s1 : List Char) (prev : List Nat) (i : Nat)
    (hi : 1 ≤ i) (hlen : prev.length = s1.length + 1)
    (hb : ∀ k, k < prev.length → prev.getD k 0 ≤ max (i - 1) k) :
    (levNextRow c2 s1 prev i).length = s1.length + 1 ∧
    ∀ k, k < (levNextRow c2 s1 prev i).length →
      (levNextRow c2 s1 prev i).getD k 0 ≤ max i k := by
  have hdlen : (prev.drop 1).length = s1.length := by simp [hlen]
  have hlen' : (levNextRow c2 s1 prev i).length = s1.length + 1 := by
    simp [levNextRow, levRowAux_length, hdlen]
    omega
  refine ⟨hlen', ?_⟩
  intro k hk
  cases k with
  | zero => simp [levNextRow]
  | succ k =>
    have hhead : prev.headD 0 ≤ max (i - 1) 0 := by
      have h0 := hb 0 (by omega)
      have : prev.headD 0 = prev.getD 0 0 := by cases prev <;> rfl
      rw [this]
      exact h0
    have hdrop : ∀ m, m < (prev.drop 1).length →
        (prev.drop 1).getD m 0 ≤ max (i - 1) (0 + 1 + m) := by
      intro m hm
      have h1 : (prev.drop 1).getD m 0 = prev.getD (1 + m) 0 := by
        simp [List.getD_eq_getElem?_getD, List.getElem?_drop, Nat.add_comm]
      rw [h1]
      have h2 := hb (1 + m) (by omega)
      have h3 : max (i - 1) (1 + m) = max (i - 1) (0 + 1 + m) := by omega
      rw [← h3]
      exact h2
    have haux := levRowAux_getD c2 s1 (prev.drop 1) (prev.headD 0) i i 0
      hi hhead (by omega) hdrop k
    have hklt : k < (levRowAux c2 s1 (prev.drop 1) (prev.headD 0) i).length := by
      simp only [levNextRow, List.length_cons] at hk
      omega
    have h5 := haux hklt
    have h6 : (levNextRow c2 s1 prev i).getD (k + 1) 0 =
        (levRowAux c2 s1 (prev.drop 1) (prev.headD 0) i).getD k 0 := rfl
    rw [h6]
    have h7 : max i (0 + 1 + k) = max i (k + 1) := by omega
    rw [h7] at h5
    exact h5

theorem levFold_bound (s1 : List Char) :
    ∀ (s2 : List Char) (n : Nat) (prev : List Nat),
      prev.length = s1.length + 1 →
      (∀ k, k < prev.length → prev.getD k 0 ≤ max n k) →
      ((List.enumFrom n s2).foldl
          (fun prev ic => levNextRow ic.2 s1 prev (ic.1 + 1)) prev).length = s1.length + 1 ∧
      ∀ k, k < ((List.enumFrom n s2).foldl
          (fun prev ic => levNextRow ic.2 s1 prev (ic.1 + 1)) prev).length →
        ((List.enumFrom n s2).foldl
          (fun prev ic => levNextRow ic.2 s1 prev (ic.1 + 1)) prev).getD k 0 ≤
          max (n + s2.length) k := by
  intro s2
  induction s2 with
  | nil =>
    intro n prev hlen hb
    refine ⟨hlen, ?_⟩
    intro k hk
    have hbk := hb k hk
    simpa only [List.length_nil, Nat.add_zero] using hbk
  | cons c cs ih =>
    intro n prev hlen hb
    have hrow := levNextRow_bound c s1 prev (n + 1) (by omega) hlen
      (by intro k hk; have := hb k hk; have h : max ((n + 1) - 1) k = max n k := by omega
          rw [h]; exact this)
    have hstep : (List.enumFrom n (c :: cs)).foldl
        (fun prev ic => levNextRow ic.2 s1 prev (ic.1 + 1)) prev =
        (List.enumFrom (n + 1) cs).foldl
          (fun prev ic => levNextRow ic.2 s1 prev (ic.1 + 1)) (levNextRow c s1 prev (n + 1)) := by
      rfl
    rw [hstep]
    have := ih (n + 1) (levNextRow c s1 prev (n + 1)) hrow.1 hrow.2
    refine ⟨this.1, ?_⟩
    intro k hk
    have h8 := this.2 k hk
    have h9 : max (n + 1 + cs.length) k = max (n + (c :: cs).length) k := by
      simp [List.length_cons]; omega
    rw [← h9]
    exact h8

theorem range_getD_le (n k : Nat) : (List.range n).getD k 0 ≤ k := by
  by_cases h : k < n
  · simp [List.getD_eq_getElem?_getD, List.getElem?_range h]
  · have hnone : (List.range n)[k]? = none := by
      rw [List.getElem?_eq_none_iff]
      simpa using Nat.le_of_not_lt h
    simp [List.getD_eq_getElem?_getD, hnone]

/-- The DP result is bounded by the length of the longer string. -/
theorem levenshteinDistance_le (str1 str2 : String) :
    levenshteinDistance str1 str2 ≤ max str2.length str1.length := by
  unfold levenshteinDistance
  have hrange : (List.range (str1.data.length + 1)).length = str1.data.length + 1 := by simp
  have hb0 : ∀ k, k < (List.range (str1.data.length + 1)).length →
      (List.range (str1.data.length + 1)).getD k 0 ≤ max 0 k := by
    intro k _
    exact le_max_of_le_right (range_getD_le _ k)
  have h := levFold_bound str1.data str2.data 0 (List.range (str1.data.length + 1)) hrange hb0
  have hfin : str1.data.length < ((List.enumFrom 0 str2.data).foldl
      (fun prev ic => levNextRow ic.2 str1.data prev (ic.1 + 1))
      (List.range (str1.data.length + 1))).length := by
    rw [h.1]; omega
  have h10 := h.2 str1.data.length hfin
  have h11 : str2.length = str2.data.length := rfl
  have h12 : str1.length = str1.data.length := rfl
  rw [h11, h12]
  simpa using h10

theorem ratio_bounds (L d : Nat) (hL : 0 < L) (hd : d ≤ L) :
    0 ≤ ((L : ℚ) - d) / L ∧ ((L : ℚ) - d) / L ≤ 1 := by
  have hL' : (0 : ℚ) < L := by exact_mod_cast hL
  constructor
  · apply div_nonneg _ (le_of_lt hL')
    have hdL : (d : ℚ) ≤ L := by exact_mod_cast hd
    linarith
  · rw [div_le_one hL']
    have hd0 : (0 : ℚ) ≤ d := by positivity
    linarith

theorem stringSimilarity_self (s : String) : stringSimilarity s s = 1 := by
  simp [stringSimilarity]

theorem stringSimilarity_empty_right (a : String) (h : a ≠ "") :
    stringSimilarity a "" = 0 := by
  simp [stringSimilarity, h]

theorem stringSimilarity_bounds (a b : String) :
    0 ≤ stringSimilarity a b ∧ stringSimilarity a b ≤ 1 := by
  unfold stringSimilarity
  by_cases hab : a = b
  · simp [hab]
  · rw [if_neg hab]
    by_cases hemp : a = "" ∨ b = ""
    · simp [hemp]
    · rw [if_neg hemp]
      push_neg at hemp
      obtain ⟨ha, hb⟩ := hemp
      by_cases hc : b.length < a.length
      · simp only [if_pos hc]
        rw [if_neg (by have := strLength_pos a ha; omega)]
        refine ratio_bounds a.length (levenshteinDistance a b) (strLength_pos a ha) ?_
        have hle := levenshteinDistance_le a b
        omega
      · simp only [if_neg hc]
        rw [if_neg (by have := strLength_pos b hb; omega)]
        refine ratio_bounds b.length (levenshteinDistance b a) (strLength_pos b hb) ?_
        have hle := levenshteinDistance_le b a
        omega

theorem stringSimilarity_formula (a b : String) (hab : a ≠ b) (ha : a ≠ "") (hb : b ≠ "") :
    stringSimilarity a b =
      1 - (levenshteinDistance (if b.length < a.length then a else b)
            (if b.length < a.length then b else a) : ℚ) /
          ((if b.length < a.length then a else b).length : ℚ) := by
  unfold stringSimilarity
  rw [if_neg hab, if_neg (by push_neg; exact ⟨ha, hb⟩)]
  by_cases hc : b.length < a.length
  · simp only [if_pos hc]
    rw [if_neg (by have := strLength_pos a ha; omega)]
    have hL : (0 : ℚ) < a.length := by exact_mod_cast strLength_pos a ha
    field_simp
  · simp only [if_neg hc]
    rw [if_neg (by have := strLength_pos b hb; omega)]
    have hL : (0 : ℚ) < b.length := by exact_mod_cast strLength_pos b hb
    field_simp

/-- C9: `stringSimilarity(a, a) = 1`; `stringSimilarity(a, "") = 0` for
non-empty `a`; every similarity lies in `[0, 1]`; and for distinct
non-empty strings the value is `1 − levenshteinDistance(longer, shorter) /
longer.length` (the code computes `(longer.length − distance) /
longer.length`, which is the same quantity; on equal lengths the source
picks `str2` as `longer`). -/
theorem claim_C9_string_similarity :
    (∀ a : String, stringSimilarity a a = 1) ∧
    (∀ a : String, a ≠ "" → stringSimilarity a "" = 0) ∧
    (∀ a b : String, 0 ≤ stringSimilarity a b ∧ stringSimilarity a b ≤ 1) ∧
    (∀ a b : String, a ≠ b → a ≠ "" → b ≠ "" →
      stringSimilarity a b =
        1 - (levenshteinDistance (if b.length < a.length then a else b)
              (if b.length < a.length then b else a) : ℚ) /
            ((if b.length < a.length then a else b).length : ℚ)) :=
  ⟨stringSimilarity_self, stringSimilarity_empty_right, stringSimilarity_bounds,
    stringSimilarity_formula⟩

/-- C9 witness: the four statements instantiated at concrete strings
(`"ab"` vs `"ax"`: distance 1, longer length 2, similarity 1/2). -/
theorem claim_C9_string_similarity_witness :
    stringSimilarity "ab" "ab" = 1 ∧
    stringSimilarity "ab" "" = 0 ∧
    (0 ≤ stringSimilarity "ab" "ax" ∧ stringSimilarity "ab" "ax" ≤ 1) ∧
    stringSimilarity "ab" "ax" =
      1 - (levenshteinDistance (if ("ax" : String).length < ("ab" : String).length then "ab" else "ax")
            (if ("ax" : String).length < ("ab" : String).length then "ax" else "ab") : ℚ) /
          ((if ("ax" : String).length < ("ab" : String).length then "ab" else "ax").length : ℚ) :=
  ⟨claim_C9_string_similarity.1 "ab",
   claim_C9_string_similarity.2.1 "ab" (by decide),
   claim_C9_string_similarity.2.2.1 "ab" "ax",
   claim_C9_string_similarity.2.2.2 "ab" "ax" (by decide) (by decide) (by decide)⟩

theorem weight_pos (k : Signal) : 0 < weight k := by
  cases k <;> norm_num [weight]

theorem weightSum_pos (t : ElementAttributes) (h : applicableSignals t ≠ []) :
    0 < weightSum t := by
  cases hl : applicableSignals t with
  | nil => exact absurd hl h
  | cons k ks =>
    unfold weightSum
    rw [hl]
    simp only [List.map_cons, List.sum_cons]
    have h1 := weight_pos k
    have h2 : 0 ≤ (ks.map weight).sum := by
      refine List.sum_nonneg ?_
      intro x hx
      obtain ⟨j, _, rfl⟩ := List.mem_map.mp hx
      exact weight_nonneg j
    linarith

/-- C7: the similarity score is the weighted sum of the per-signal scores
over the signals present in the target attributes, divided by the sum of
the weights of those signals, and it is 0 when no signal is applicable. -/
theorem claim_C7_similarity_renormalization :
    ∀ (sq : ℚ → ℚ) (e : ElemM) (t : ElementAttributes),
      (applicableSignals t ≠ [] →
        calculateSimilarityScore sq e t = weightedScoreSum sq e t / weightSum t) ∧
      (applicableSignals t = [] → calculateSimilarityScore sq e t = 0) := by
  intro sq e t
  constructor
  · intro h
    rw [calcScore_formula, if_pos (weightSum_pos t h)]
  · intro h
    rw [calcScore_formula]
    have hz : weightSum t = 0 := by
      unfold weightSum
      rw [h]
      simp
    rw [hz]
    simp

/-- C7 witness: a candidate with matching text and mismatched aria-label
(score (1·0.25 + 0·0.2)/0.45 = 5/9) and a target with no applicable
signal (score 0). -/
theorem claim_C7_similarity_renormalization_witness :
    calculateSimilarityScore (fun _ => 0)
        { tagName := "div", textContent := "ab", innerText := "", className := "", id := "",
          value := "", attrs := [], rect := ⟨0, 0, 0, 0⟩ }
        { text := some "ab", ariaLabel := some "x" } =
      weightedScoreSum (fun _ => 0)
        { tagName := "div", textContent := "ab", innerText := "", className := "", id := "",
          value := "", attrs := [], rect := ⟨0, 0, 0, 0⟩ }
        { text := some "ab", ariaLabel := some "x" } /
      weightSum { text := some "ab", ariaLabel := some "x" } ∧
    calculateSimilarityScore (fun _ => 0)
        { tagName := "div", textContent := "ab", innerText := "", className := "", id := "",
          value := "", attrs := [], rect := ⟨0, 0, 0, 0⟩ }
        ({} : ElementAttributes) = 0 :=
  ⟨(claim_C7_similarity_renormalization (fun _ => 0) _ _).1 (by decide),
   (claim_C7_similarity_renormalization (fun _ => 0) _ _).2 (by decide)⟩

theorem calculatePositionSimilarity_le_one (sq : ℚ → ℚ) (hsq : ∀ q, 0 ≤ sq q)
    (r p : Rect) : calculatePositionSimilarity sq r p ≤ 1 := by
  unfold calculatePositionSimilarity
  dsimp only
  have h1 : 0 ≤ sq ((r.x - p.x) ^ 2 + (r.y - p.y) ^ 2) := hsq _
  have h2 : (0 : ℚ) ⊔ (1 - sq ((r.x - p.x) ^ 2 + (r.y - p.y) ^ 2) / 200) ≤ 1 := by
    apply max_le
    · norm_num
    · have h0 : 0 ≤ sq ((r.x - p.x) ^ 2 + (r.y - p.y) ^ 2) / 200 := by positivity
      linarith
  have h3 : (0 : ℚ) ≤ (0 : ℚ) ⊔ (1 - sq ((r.x - p.x) ^ 2 + (r.y - p.y) ^ 2) / 200) :=
    le_max_left _ _
  split <;> nlinarith

theorem signalScore_le_one (sq : ℚ → ℚ) (hsq : ∀ q, 0 ≤ sq q) (e : ElemM)
    (t : ElementAttributes) (k : Signal) : signalScore sq e t k ≤ 1 := by
  cases k with
  | text => exact (stringSimilarity_bounds _ _).2
  | ariaLabel => simp only [signalScore]; split <;> norm_num
  | dataAttrs =>
    simp only [signalScore]
    apply div_le_one_of_le₀
    · exact_mod_cast List.length_filter_le _ _
    · positivity
  | placeholder => simp only [signalScore]; split <;> norm_num
  | name => simp only [signalScore]; split <;> norm_num
  | className =>
    simp only [signalScore]
    apply div_le_one_of_le₀
    · exact_mod_cast List.length_filter_le _ _
    · positivity
  | position => exact calculatePositionSimilarity_le_one sq hsq e.rect _
  | role => simp only [signalScore]; split <;> norm_num

/-- C8: making one applicable signal an exact match (per-signal score 1)
while leaving the other applicable signals' scores unchanged never
decreases the similarity score.  `hsq` states that the host square root
is non-negative (true of `Math.sqrt` on the non-negative inputs it
receives here). -/
theorem claim_C8_score_monotonicity (sq : ℚ → ℚ) (e e' : ElemM) (t : ElementAttributes)
    (k : Signal) (hsq : ∀ q, 0 ≤ sq q) (hk : applicable t k = true)
    (hexact : signalScore sq e' t k = 1)
    (hother : ∀ j : Signal, applicable t j = true → j ≠ k →
      signalScore sq e' t j = signalScore sq e t j) :
    calculateSimilarityScore sq e t ≤ calculateSimilarityScore sq e' t := by
  have hmem : k ∈ applicableSignals t := by
    unfold applicableSignals
    rw [List.mem_filter]
    exact ⟨by cases k <;> simp [allSignals], hk⟩
  have hne : applicableSignals t ≠ [] := by
    intro h
    rw [h] at hmem
    simp at hmem
  have hpos := weightSum_pos t hne
  rw [calcScore_formula, calcScore_formula, if_pos hpos, if_pos hpos]
  rw [div_le_div_iff_of_pos_right hpos]
  unfold weightedScoreSum
  refine List.sum_le_sum ?_
  intro j hj
  by_cases hjk : j = k
  · subst hjk
    rw [hexact]
    exact mul_le_mul_of_nonneg_right (signalScore_le_one sq hsq e t j) (weight_nonneg j)
  · rw [hother j (List.mem_filter.mp hj).2 hjk]

/-- C8 witness: turning the aria-label signal into an exact match (with
the text signal unchanged) does not decrease the score. -/
theorem claim_C8_score_monotonicity_witness :
    calculateSimilarityScore sqZero wElemC8 wAttrsC8 ≤
      calculateSimilarityScore sqZero wElemC8' wAttrsC8 :=
  claim_C8_score_monotonicity sqZero wElemC8 wElemC8' wAttrsC8 .ariaLabel
    (fun _ => le_refl 0) (by decide) (by decide)
    (by
      intro j hj hne
      cases j <;> first
        | rfl
        | exact absurd hj (by decide)
        | exact absurd rfl hne)

/-- C6: when the locator loop reaches a strategy whose query yields
exactly one structural match, that element is accepted immediately with
the strategy's static confidence and kind.  The conclusion does not
mention the similarity scorer `sq`, the threshold, or the fingerprint's
attributes: no attribute-similarity score is computed on this path. -/
theorem claim_C6_unique_short_circuit (doc : String → Option (List ElemM)) (sq : ℚ → ℚ)
    (thr : ℚ) (fp : ElementFingerprint) (l : LocatorStrategy) (rest : List LocatorStrategy)
    (e : ElemM) (h : doc l.value = some [e]) :
    tryLocators doc sq thr fp (l :: rest) =
      (.ok ⟨some e, some l, l.confidence, .strat l.type⟩, [l.value]) := by
  unfold tryLocators
  rw [h]

/-- C6 witness: a single id strategy resolving to one concrete element. -/
theorem claim_C6_unique_short_circuit_witness :
    tryLocators (fun s => if s = "#w" then some [wElemC8] else some []) sqZero 0.6
        { name := "w", primaryLocator := "#w", alternativeLocators := [], attributes := {},
          lastSeen := none, healCount := 0 }
        [{ type := .id, value := "#w", priority := 3, confidence := 0.9 }] =
      (.ok ⟨some wElemC8, some { type := .id, value := "#w", priority := 3, confidence := 0.9 },
        0.9, .strat .id⟩, ["#w"]) :=
  claim_C6_unique_short_circuit _ sqZero 0.6 _ _ [] wElemC8 (by decide)

theorem findBySimilarity_matchedBy (doc : String → Option (List ElemM)) (sq : ℚ → ℚ)
    (target : ElementAttributes) (r : MatchResult)
    (h : (findBySimilarity doc sq target).1 = .ok r) : r.matchedBy = .similarity := by
  unfold findBySimilarity at h
  split at h
  · injection h with h
    rw [← h]
  · split at h
    · exact absurd h (by simp)
    · injection h with h
      rw [← h]

theorem tryLocators_accepted (doc : String → Option (List ElemM)) (sq : ℚ → ℚ) (thr : ℚ)
    (fp : ElementFingerprint) :
    ∀ (ls : List LocatorStrategy) (r : MatchResult),
      (tryLocators doc sq thr fp ls).1 = .ok r →
      r.element.isSome = true →
      thr ≤ r.confidence ∨ r.matchedBy = .similarity ∨
        ∃ l, l ∈ ls ∧ ∃ e, doc l.value = some [e] ∧
          r = ⟨some e, some l, l.confidence, .strat l.type⟩ := by
  intro ls
  induction ls with
  | nil =>
    intro r hok _
    exact Or.inr (Or.inl (findBySimilarity_matchedBy doc sq fp.attributes r hok))
  | cons l rest ih =>
    intro r hok hel
    unfold tryLocators at hok
    cases hdoc : doc l.value with
    | none =>
      rw [hdoc] at hok
      obtain h1 | h2 | ⟨l', hl', he⟩ := ih r hok hel
      · exact Or.inl h1
      · exact Or.inr (Or.inl h2)
      · exact Or.inr (Or.inr ⟨l', List.mem_cons_of_mem l hl', he⟩)
    | some elements =>
      rw [hdoc] at hok
      match elements with
      | [e] =>
        injection hok with hok
        refine Or.inr (Or.inr ⟨l, List.mem_cons_self l rest, e, hdoc, ?_⟩)
        exact hok.symm
      | [] =>
        simp only [List.length_nil, Nat.not_lt_zero, if_false] at hok
        obtain h1 | h2 | ⟨l', hl', he⟩ := ih r hok hel
        · exact Or.inl h1
        · exact Or.inr (Or.inl h2)
        · exact Or.inr (Or.inr ⟨l', List.mem_cons_of_mem l hl', he⟩)
      | e1 :: e2 :: es =>
        simp only [List.length_cons] at hok
        rw [if_pos (by omega)] at hok
        split at hok
        · injection hok with hok
          rw [← hok]
          simp only []
          left
          assumption
        · obtain h1 | h2 | ⟨l', hl', he⟩ := ih r hok hel
          · exact Or.inl h1
          · exact Or.inr (Or.inl h2)
          · exact Or.inr (Or.inr ⟨l', List.mem_cons_of_mem l hl', he⟩)

/-- C2 (amended): `match()` never returns an accepted (non-absent)
element with confidence strictly below the threshold, except via the
uniqueness short-circuit path or via the final full-document similarity
fallback (which returns its best scorer regardless of the threshold;
the original claim admitted only the short-circuit exception). -/
theorem claim_C2_amended_threshold_gate (doc : String → Option (List ElemM)) (sq : ℚ → ℚ)
    (thr : ℚ) (fp : ElementFingerprint) (r : MatchResult)
    (hok : (matcherFindElement doc sq thr fp).1 = .ok r)
    (hel : r.element.isSome = true) :
    thr ≤ r.confidence ∨ r.matchedBy = .similarity ∨
      ∃ l, l ∈ fp.alternativeLocators ∧ ∃ e, doc l.value = some [e] ∧
        r = ⟨some e, some l, l.confidence, .strat l.type⟩ :=
  tryLocators_accepted doc sq thr fp fp.alternativeLocators r hok hel

theorem wScoreC2 : calculateSimilarityScore sqZero wElemC2 wFpC2.attributes = 1 / 2 := by
  have hlev : levenshteinDistance "ab" "ax" = 1 := by decide
  norm_num +decide [calculateSimilarityScore, condAdd, applicable, signalScore, truthyO,
    stringSimilarity, hlev, wElemC2, wFpC2, jsTrim, String.length]

theorem wBestC2 : findBestMatch sqZero [wElemC2] wFpC2.attributes = (some wElemC2, 1 / 2) := by
  norm_num [findBestMatch, wScoreC2]

theorem wMatcherC2 : matcherFindElement wDocC2 sqZero 0.6 wFpC2 =
    (.ok ⟨some wElemC2, none, 1 / 2, .similarity⟩, ["div"]) := by
  norm_num +decide [matcherFindElement, tryLocators, findBySimilarity, wDocC2,
    truthyO, wBestC2, show wFpC2.alternativeLocators = [] from rfl,
    show wFpC2.attributes.tagName = some "div" from rfl]

/-- C2 witness: the amended gate applied to a fallback acceptance. -/
theorem claim_C2_amended_threshold_gate_witness :
    (0.6 : ℚ) ≤ (⟨some wElemC2, none, 1 / 2, .similarity⟩ : MatchResult).confidence ∨
    (⟨some wElemC2, none, 1 / 2, .similarity⟩ : MatchResult).matchedBy = .similarity ∨
      ∃ l, l ∈ wFpC2.alternativeLocators ∧ ∃ e, wDocC2 l.value = some [e] ∧
        (⟨some wElemC2, none, 1 / 2, .similarity⟩ : MatchResult) =
          ⟨some e, some l, l.confidence, .strat l.type⟩ :=
  claim_C2_amended_threshold_gate wDocC2 sqZero 0.6 wFpC2
    ⟨some wElemC2, none, 1 / 2, .similarity⟩ (by simp [wMatcherC2]) (by decide)

/-- C2 counterexample to the claim as stated: with an empty strategy list
(so the uniqueness short-circuit cannot be involved) the similarity
fallback accepts an element at confidence 1/2, strictly below the 0.6
threshold. -/
theorem claim_C2_counterexample :
    (matcherFindElement wDocC2 sqZero 0.6 wFpC2).1 =
      .ok ⟨some wElemC2, none, 1 / 2, .similarity⟩ ∧
    ((1 : ℚ) / 2 < 0.6) ∧ wFpC2.alternativeLocators = [] :=
  ⟨by simp [wMatcherC2], by norm_num, rfl⟩

theorem generateTextLocator_isSome (tag text : String) :
    (generateTextLocator tag text).isSome = true := by
  simp only [generateTextLocator]
  split <;> rfl

theorem mem_ite_single_type (c : Prop) [Decidable c] (x t : LocatorType) :
    (t ∈ (if c then [x] else [])) ↔ (c ∧ t = x) := by
  split <;> simp_all

/-- The kinds emitted by the candidate builder, chunk by chunk, each
guarded by its precondition. -/
theorem locatorCandidates_types (e : ElemM) (a : ElementAttributes) :
    (locatorCandidates e a).map LocatorStrategy.type =
      (if strategyPrecond .testId a then [LocatorType.testId] else []) ++
      (if strategyPrecond .cy a then [LocatorType.cy] else []) ++
      (if strategyPrecond .id a then [LocatorType.id] else []) ++
      (if strategyPrecond .ariaLabel a then [LocatorType.ariaLabel] else []) ++
      (if strategyPrecond .name a then [LocatorType.name] else []) ++
      (if strategyPrecond .placeholder a then [LocatorType.placeholder] else []) ++
      (if strategyPrecond .role a then [LocatorType.role] else []) ++
      (if strategyPrecond .text a then [LocatorType.text] else []) ++
      (if strategyPrecond .cls a then [LocatorType.cls] else []) ++
      (if strategyPrecond .css a then [LocatorType.css] else []) := by
  unfold locatorCandidates
  cases htl : generateTextLocator (jsToLower e.tagName) (a.text.getD "") with
  | none =>
    have h1 : (none : Option String).isSome = true :=
      htl ▸ generateTextLocator_isSome (jsToLower e.tagName) (a.text.getD "")
    exact absurd h1 (by simp)
  | some tl =>
    cases hcss : generateContextualCss a with
    | none => simp [strategyPrecond, apply_ite (List.map LocatorStrategy.type), hcss]
    | some v => simp [strategyPrecond, apply_ite (List.map LocatorStrategy.type), hcss]

theorem mem_locatorCandidates_types (e : ElemM) (a : ElementAttributes) (t : LocatorType) :
    t ∈ (locatorCandidates e a).map LocatorStrategy.type ↔ strategyPrecond t a = true := by
  rw [locatorCandidates_types]
  simp only [List.mem_append, mem_ite_single_type]
  cases t <;> simp [strategyPrecond]

/-- C5 (amended): for every fingerprint produced by capture, the
alternative-locator list is sorted ascending by priority, and the
strategy kinds present are exactly those whose emission guard held on the
captured attributes: test-id iff a non-empty `data-testid` value,
cypress-test-id iff a non-empty `data-cy` value, id iff a non-empty id,
aria-label/name/placeholder likewise, role iff both role and non-empty
text, text-content iff non-empty text under 50 characters, css-class iff
the class string is non-empty and contains no space character (U+0020 —
the source checks `includes(' ')`, not general whitespace), and
contextual-css iff the contextual selector builder returns a value. -/
theorem claim_C5_amended_capture_invariant (e : ElemM) (nm primary : String) (now : Nat) :
    List.Sorted priorityLE (captureElementFingerprint e nm primary now).alternativeLocators ∧
    ∀ t : LocatorType,
      t ∈ (captureElementFingerprint e nm primary now).alternativeLocators.map
            LocatorStrategy.type ↔
        strategyPrecond t (extractAttributes e) = true := by
  constructor
  · exact List.sorted_insertionSort priorityLE (locatorCandidates e (extractAttributes e))
  · intro t
    have hperm : List.Perm
        ((List.insertionSort priorityLE (locatorCandidates e (extractAttributes e))).map
          LocatorStrategy.type)
        ((locatorCandidates e (extractAttributes e)).map LocatorStrategy.type) :=
      (List.perm_insertionSort priorityLE (locatorCandidates e (extractAttributes e))).map
        LocatorStrategy.type
    have hmem := hperm.mem_iff (a := t)
    rw [show (captureElementFingerprint e nm primary now).alternativeLocators =
        List.insertionSort priorityLE (locatorCandidates e (extractAttributes e)) from rfl]
    rw [hmem]
    exact mem_locatorCandidates_types e (extractAttributes e) t

/-- C5 counterexample to the claim as stated: an element whose class
string contains a whitespace character (a tab) but no space still gets a
css-class strategy, because the source only rejects the space character;
the claim's "contains no whitespace" precondition would forbid it. -/
theorem claim_C5_counterexample :
    LocatorType.cls ∈ (captureElementFingerprint wElemC5 "x" "#x" 0).alternativeLocators.map
        LocatorStrategy.type ∧
    wElemC5.className.data.any Char.isWhitespace = true := by
  constructor
  · decide
  · decide

theorem strAppend_assoc (a b c : String) : a ++ b ++ c = a ++ (b ++ c) :=
  congrArg String.mk (List.append_assoc a.data b.data c.data)

/-- Reduction of `findElement` on the direct path (primary locator yields
exactly one element): re-capture and save. -/
theorem findElementM_direct (cfg : SelfHealingConfig) (doc : String → Option (List ElemM))
    (sq : ℚ → ℚ) (now : Nat) (ctx : TestContext) (s : StoreState)
    (primaryLocator elementName : String) (e : ElemM)
    (hdoc : doc primaryLocator = some [e]) :
    findElementM cfg doc sq now ctx s primaryLocator elementName =
      (.ok e, saveFingerprint s (captureElementFingerprint e elementName primaryLocator now),
        [primaryLocator]) := by
  unfold findElementM
  rw [hdoc]

/-- Reduction of `findElement` on the healing path (primary locator does
not yield exactly one element, healing enabled). -/
theorem findElementM_heal_path (cfg : SelfHealingConfig) (doc : String → Option (List ElemM))
    (sq : ℚ → ℚ) (now : Nat) (ctx : TestContext) (s : StoreState)
    (primaryLocator elementName : String) (res : List ElemM)
    (hdoc : doc primaryLocator = some res) (hlen : res.length ≠ 1)
    (hen : cfg.enabled = true) :
    findElementM cfg doc sq now ctx s primaryLocator elementName =
      ((healAndFindM cfg doc sq now ctx s primaryLocator elementName).1,
       (healAndFindM cfg doc sq now ctx s primaryLocator elementName).2.1,
       primaryLocator :: (healAndFindM cfg doc sq now ctx s primaryLocator elementName).2.2) := by
  unfold findElementM
  rw [hdoc]
  rcases res with _ | ⟨a, _ | ⟨b, bs⟩⟩
  · rw [if_neg (by simp [hen])]
  · simp at hlen
  · rw [if_neg (by simp [hen])]

theorem getFingerprint_recordHealingEvent (s : StoreState) (ev : HealingEvent) :
    getFingerprint (recordHealingEvent s ev) ev.elementName =
      (getFingerprint s ev.elementName).map
        (fun fp => { fp with healCount := fp.healCount + 1 }) := by
  unfold recordHealingEvent getFingerprint
  cases h : mapGet s.fingerprints ev.elementName with
  | none => simp [h]
  | some fp => simp [h, mapGet_mapSet_self]

/-- A successful heal: the element is returned and the stored fingerprint
ends up with heal count `fp.healCount + 2` — one increment applied by
`recordHealingEvent` and a second one applied by `healAndFind` through the
aliased fingerprint object — and a refreshed last-seen stamp. -/
theorem healAndFindM_success (cfg : SelfHealingConfig) (doc : String → Option (List ElemM))
    (sq : ℚ → ℚ) (now : Nat) (ctx : TestContext) (s : StoreState)
    (primaryLocator elementName : String) (fp : ElementFingerprint) (mr : MatchResult)
    (qs : List String) (el : ElemM)
    (hname : fp.name = elementName)
    (hfp : getFingerprint s elementName = some fp)
    (hm : matcherFindElement doc sq cfg.confidenceThreshold fp = (.ok mr, qs))
    (hel : mr.element = some el)
    (hconf : ¬(mr.confidence < cfg.confidenceThreshold)) :
    (healAndFindM cfg doc sq now ctx s primaryLocator elementName).1 = .ok el ∧
    ∃ fp', getFingerprint (healAndFindM cfg doc sq now ctx s primaryLocator elementName).2.1
        elementName = some fp' ∧
      fp'.healCount = fp.healCount + 2 ∧ fp'.lastSeen = some now := by
  have h1 : ∀ ev : HealingEvent, ev.elementName = elementName →
      getFingerprint (recordHealingEvent s ev) elementName =
        some { fp with healCount := fp.healCount + 1 } := by
    intro ev hev
    rw [← hev, getFingerprint_recordHealingEvent, hev, hfp]
    rfl
  unfold healAndFindM
  rw [hfp]
  dsimp only
  rw [hm]
  dsimp only
  rw [hel]
  dsimp only
  rw [if_neg hconf]
  refine ⟨rfl, ?_⟩
  rw [h1 _ rfl]
  refine ⟨⟨fp.name, fp.primaryLocator, fp.alternativeLocators, fp.attributes, some now,
    fp.healCount + 1 + 1⟩, ?_, rfl, rfl⟩
  unfold saveFingerprint getFingerprint
  simp only [Option.getD_some]
  rw [show ({ fp with healCount := fp.healCount + 1 } : ElementFingerprint).name = elementName
    from hname]
  exact mapGet_mapSet_self _ _ _

/-- C1: code bug.  A single successful heal (primary fails, the test-id
strategy resolves uniquely at confidence 0.95 ≥ 0.6) moves the stored
heal count from 0 to 2, not to 1: `recordHealingEvent` increments the
stored fingerprint object, and `healAndFind` then adds 1 again through
its alias of the same object. -/
theorem claim_C1_heal_double_increment :
    (getFingerprint wStoreC1 "loginButton").map ElementFingerprint.healCount = some 0 ∧
    (findElementM defaultConfig wDocC1 sqZero 7 wCtx wStoreC1 "#login-btn" "loginButton").1 =
      .ok wElemC1 ∧
    (getFingerprint (findElementM defaultConfig wDocC1 sqZero 7 wCtx wStoreC1 "#login-btn"
        "loginButton").2.1 "loginButton").map ElementFingerprint.healCount = some 2 := by
  have hm : matcherFindElement wDocC1 sqZero defaultConfig.confidenceThreshold wFpC1 =
      (.ok ⟨some wElemC1, some wLocC1, wLocC1.confidence, .strat wLocC1.type⟩, [wLocC1.value]) := by
    simp [matcherFindElement, tryLocators, show wFpC1.alternativeLocators = [wLocC1] from rfl,
      show wDocC1 wLocC1.value = some [wElemC1] from rfl]
  have hcf : ¬((⟨some wElemC1, some wLocC1, wLocC1.confidence, .strat wLocC1.type⟩ :
      MatchResult).confidence < defaultConfig.confidenceThreshold) := by
    norm_num [wLocC1, defaultConfig]
  have hs := healAndFindM_success defaultConfig wDocC1 sqZero 7 wCtx wStoreC1 "#login-btn"
    "loginButton" wFpC1 ⟨some wElemC1, some wLocC1, wLocC1.confidence, .strat wLocC1.type⟩
    [wLocC1.value] wElemC1 rfl rfl hm rfl hcf
  have hpath := findElementM_heal_path defaultConfig wDocC1 sqZero 7 wCtx wStoreC1
    "#login-btn" "loginButton" [] rfl (by decide) rfl
  refine ⟨rfl, ?_, ?_⟩
  · rw [hpath]
    exact hs.1
  · rw [hpath]
    obtain ⟨fp', hget, hcount, _⟩ := hs.2
    dsimp only
    rw [hget]
    simp [hcount, show wFpC1.healCount = 0 from rfl]

/-- C3 (amended): every successful resolution refreshes the stored
fingerprint's last-seen stamp, but the heal count is not incremented on a
direct resolution: the direct path replaces the stored fingerprint with a
fresh capture whose heal count is 0, while a successful heal increases
the stored heal count (by 2, see C1) and refreshes last-seen. -/
theorem claim_C3_amended_resolution_updates (cfg : SelfHealingConfig)
    (doc : String → Option (List ElemM)) (sq : ℚ → ℚ) (now : Nat) (ctx : TestContext)
    (s : StoreState) (primaryLocator elementName : String) :
    (∀ e : ElemM, doc primaryLocator = some [e] →
      getFingerprint (findElementM cfg doc sq now ctx s primaryLocator elementName).2.1
          elementName =
        some (captureElementFingerprint e elementName primaryLocator now) ∧
      (captureElementFingerprint e elementName primaryLocator now).healCount = 0 ∧
      (captureElementFingerprint e elementName primaryLocator now).lastSeen = some now) ∧
    (∀ (res : List ElemM) (fp : ElementFingerprint) (mr : MatchResult) (qs : List String)
        (el : ElemM),
      cfg.enabled = true → doc primaryLocator = some res → res.length ≠ 1 →
      fp.name = elementName → getFingerprint s elementName = some fp →
      matcherFindElement doc sq cfg.confidenceThreshold fp = (.ok mr, qs) →
      mr.element = some el → ¬(mr.confidence < cfg.confidenceThreshold) →
      ∃ fp', getFingerprint (findElementM cfg doc sq now ctx s primaryLocator
          elementName).2.1 elementName = some fp' ∧
        fp'.healCount = fp.healCount + 2 ∧ fp'.lastSeen = some now) := by
  constructor
  · intro e hdoc
    rw [findElementM_direct cfg doc sq now ctx s primaryLocator elementName e hdoc]
    exact ⟨mapGet_mapSet_self _ _ _, rfl, rfl⟩
  · intro res fp mr qs el hen hdoc hlen hname hfp hm hel hconf
    rw [findElementM_heal_path cfg doc sq now ctx s primaryLocator elementName res hdoc hlen hen]
    exact (healAndFindM_success cfg doc sq now ctx s primaryLocator elementName fp mr qs el
      hname hfp hm hel hconf).2

/-- C3 counterexample to the claim as stated: a fingerprint with heal
count 5 is resolved directly via its primary locator; afterwards the
stored heal count is 0 (a fresh capture), not the claimed 5 + 1. -/
theorem claim_C3_counterexample :
    (getFingerprint wStoreC3 "btn").map ElementFingerprint.healCount = some 5 ∧
    (getFingerprint (findElementM defaultConfig wDocC3 sqZero 9 wCtx wStoreC3 "#btn"
        "btn").2.1 "btn").map ElementFingerprint.healCount = some 0 := by
  refine ⟨rfl, ?_⟩
  rw [findElementM_direct defaultConfig wDocC3 sqZero 9 wCtx wStoreC3 "#btn" "btn" wElemC3 rfl]
  rfl

/-- C3 witness: the amended theorem applied to a concrete direct
resolution and to a concrete successful heal. -/
theorem claim_C3_amended_resolution_updates_witness :
    (getFingerprint (findElementM defaultConfig wDocC3 sqZero 9 wCtx wStoreC3 "#btn"
        "btn").2.1 "btn" = some (captureElementFingerprint wElemC3 "btn" "#btn" 9) ∧
      (captureElementFingerprint wElemC3 "btn" "#btn" 9).healCount = 0 ∧
      (captureElementFingerprint wElemC3 "btn" "#btn" 9).lastSeen = some 9) ∧
    (∃ fp', getFingerprint (findElementM defaultConfig wDocC1 sqZero 7 wCtx wStoreC1
        "#login-btn" "loginButton").2.1 "loginButton" = some fp' ∧
      fp'.healCount = wFpC1.healCount + 2 ∧ fp'.lastSeen = some 7) := by
  constructor
  · exact (claim_C3_amended_resolution_updates defaultConfig wDocC3 sqZero 9 wCtx wStoreC3
      "#btn" "btn").1 wElemC3 rfl
  · exact (claim_C3_amended_resolution_updates defaultConfig wDocC1 sqZero 7 wCtx wStoreC1
      "#login-btn" "loginButton").2 [] wFpC1
      ⟨some wElemC1, some wLocC1, wLocC1.confidence, .strat wLocC1.type⟩ [wLocC1.value] wElemC1
      rfl rfl (by decide) rfl rfl
      (by simp [matcherFindElement, tryLocators, show wFpC1.alternativeLocators = [wLocC1]
        from rfl, show wDocC1 wLocC1.value = some [wElemC1] from rfl])
      rfl (by norm_num [wLocC1, defaultConfig])

/-- C4 (amended): when no fingerprint is stored for the element name and
the primary locator does not resolve to exactly one element (healing
enabled), heal fails with the no-fingerprint error, whose message
contains both the element name and the failed primary locator, and the
only DOM query attempted is the single primary-locator query — the
matcher performs none (the original claim said no DOM query at all, but
`findElement` always queries the primary locator first). -/
theorem claim_C4_amended_no_fingerprint (cfg : SelfHealingConfig)
    (doc : String → Option (List ElemM)) (sq : ℚ → ℚ) (now : Nat) (ctx : TestContext)
    (s : StoreState) (primaryLocator elementName : String) (res : List ElemM)
    (henabled : cfg.enabled = true)
    (hfp : getFingerprint s elementName = none)
    (hdoc : doc primaryLocator = some res)
    (hlen : res.length ≠ 1) :
    findElementM cfg doc sq now ctx s primaryLocator elementName =
      (.error (.noFingerprint elementName primaryLocator), s, [primaryLocator]) ∧
    (∃ p q, noFingerprintMessage elementName primaryLocator = p ++ (elementName ++ q)) ∧
    (∃ p, noFingerprintMessage elementName primaryLocator = p ++ primaryLocator) := by
  refine ⟨?_, ?_, ?_⟩
  · rw [findElementM_heal_path cfg doc sq now ctx s primaryLocator elementName res hdoc hlen
      henabled]
    have hh : healAndFindM cfg doc sq now ctx s primaryLocator elementName =
        (.error (.noFingerprint elementName primaryLocator), s, []) := by
      unfold healAndFindM
      rw [hfp]
    rw [hh]
  · refine ⟨"Element \"",
      "\" not found and no fingerprint available for self-healing. Original locator: " ++
        primaryLocator, ?_⟩
    unfold noFingerprintMessage
    rw [strAppend_assoc, strAppend_assoc]
  · exact ⟨"Element \"" ++ elementName ++
      "\" not found and no fingerprint available for self-healing. Original locator: ", rfl⟩

/-- C4 counterexample to the claim as stated: calling heal for the
unregistered name `"ghost"` does fail with the no-fingerprint error, but
the query trace is `["#ghost-loc"]`, not empty — one DOM query (the
primary locator) was attempted. -/
theorem claim_C4_counterexample :
    findElementM defaultConfig (fun _ => some []) sqZero 0 wCtx emptyStore "#ghost-loc"
        "ghost" =
      (.error (.noFingerprint "ghost" "#ghost-loc"), emptyStore, ["#ghost-loc"]) ∧
    (["#ghost-loc"] : List String) ≠ [] := by
  exact ⟨rfl, by simp⟩

/-- C4 witness: the amended theorem at the `"ghost"` scenario. -/
theorem claim_C4_amended_no_fingerprint_witness :
    (findElementM defaultConfig (fun _ => some []) sqZero 0 wCtx emptyStore "#ghost-loc"
        "ghost" =
      (.error (.noFingerprint "ghost" "#ghost-loc"), emptyStore, ["#ghost-loc"])) ∧
    (∃ p q, noFingerprintMessage "ghost" "#ghost-loc" = p ++ ("ghost" ++ q)) ∧
    (∃ p, noFingerprintMessage "ghost" "#ghost-loc" = p ++ "#ghost-loc") :=
  claim_C4_amended_no_fingerprint defaultConfig (fun _ => some []) sqZero 0 wCtx emptyStore
    "#ghost-loc" "ghost" [] rfl rfl rfl (by decide)

theorem mapSet_append_of_not_mem {α : Type} (m : List (String × α)) (k : String) (v : α)
    (h : k ∉ m.map (fun p => p.1)) : mapSet m k v = m ++ [(k, v)] := by
  induction m with
  | nil => rfl
  | cons p ps ih =>
    simp only [List.map_cons, List.mem_cons, not_or] at h
    rw [show mapSet (p :: ps) k v = if p.1 = k then (k, v) :: ps else p :: mapSet ps k v
      from rfl]
    rw [if_neg (fun hh => h.1 hh.symm), ih h.2]
    rfl

theorem mem_mapSet {α : Type} (m : List (String × α)) (k : String) (v : α)
    (p : String × α) (h : p ∈ mapSet m k v) : p ∈ m ∨ p = (k, v) := by
  induction m with
  | nil => simpa [mapSet] using h
  | cons q qs ih =>
    rw [show mapSet (q :: qs) k v = if q.1 = k then (k, v) :: qs else q :: mapSet qs k v
      from rfl] at h
    by_cases hq : q.1 = k
    · rw [if_pos hq] at h
      rcases List.mem_cons.mp h with h' | h'
      · exact Or.inr h'
      · exact Or.inl (List.mem_cons_of_mem q h')
    · rw [if_neg hq] at h
      rcases List.mem_cons.mp h with h' | h'
      · exact Or.inl (h' ▸ List.mem_cons_self q qs)
      · rcases ih h' with h'' | h''
        · exact Or.inl (List.mem_cons_of_mem q h'')
        · exact Or.inr h''

theorem keys_mapSet_of_mem {α : Type} (m : List (String × α)) (k : String) (v : α)
    (h : k ∈ m.map (fun p => p.1)) :
    (mapSet m k v).map (fun p => p.1) = m.map (fun p => p.1) := by
  induction m with
  | nil => simp at h
  | cons q qs ih =>
    rw [show mapSet (q :: qs) k v = if q.1 = k then (k, v) :: qs else q :: mapSet qs k v
      from rfl]
    by_cases hq : q.1 = k
    · rw [if_pos hq]
      simp [hq]
    · rw [if_neg hq]
      simp only [List.map_cons, List.mem_cons] at h
      rcases h with h | h
      · exact absurd h.symm hq
      · simp [ih h]

theorem fpMapWF_mapSet (m : List (String × ElementFingerprint)) (k : String)
    (fp : ElementFingerprint) (hk : fp.name = k) (h : FpMapWF m) :
    FpMapWF (mapSet m k fp) := by
  obtain ⟨hn, hv⟩ := h
  by_cases hmem : k ∈ m.map (fun p => p.1)
  · refine ⟨by rw [keys_mapSet_of_mem m k fp hmem]; exact hn, ?_⟩
    intro p hp
    rcases mem_mapSet m k fp p hp with h' | h'
    · exact hv p h'
    · rw [h']
      exact hk
  · rw [mapSet_append_of_not_mem m k fp hmem]
    refine ⟨?_, ?_⟩
    · simp [List.nodup_append, hn, hmem]
    · intro p hp
      rcases List.mem_append.mp hp with h' | h'
      · exact hv p h'
      · simp only [List.mem_singleton] at h'
        rw [h']
        exact hk

theorem mapGet_mem {α : Type} (m : List (String × α)) (k : String) (v : α)
    (h : mapGet m k = some v) : (k, v) ∈ m := by
  induction m with
  | nil => simp [mapGet] at h
  | cons p ps ih =>
    rw [show mapGet (p :: ps) k = if p.1 = k then some p.2 else mapGet ps k from rfl] at h
    by_cases hp : p.1 = k
    · rw [if_pos hp] at h
      injection h with h
      rw [← h, ← hp]
      exact List.mem_cons_self p ps
    · rw [if_neg hp] at h
      exact List.mem_cons_of_mem p (ih h)

theorem storeWF_emptyStore : StoreWF emptyStore := ⟨List.nodup_nil, by simp [emptyStore]⟩

theorem storeWF_saveFingerprint (s : StoreState) (fp : ElementFingerprint) (h : StoreWF s) :
    StoreWF (saveFingerprint s fp) :=
  fpMapWF_mapSet s.fingerprints fp.name fp rfl h

theorem storeWF_recordHealingEvent (s : StoreState) (ev : HealingEvent) (h : StoreWF s) :
    StoreWF (recordHealingEvent s ev) := by
  unfold StoreWF recordHealingEvent
  dsimp only
  cases hg : mapGet s.fingerprints ev.elementName with
  | none => exact h
  | some fp =>
    have hmem := mapGet_mem s.fingerprints ev.elementName fp hg
    have hname : fp.name = ev.elementName := h.2 (ev.elementName, fp) hmem
    exact fpMapWF_mapSet s.fingerprints ev.elementName _ hname h

theorem storeWF_importStore (s : StoreState) (data : StoreData) (h : StoreWF s) :
    StoreWF (importStore s data) := by
  unfold StoreWF importStore
  have hgen : ∀ (l : List ElementFingerprint) (m : List (String × ElementFingerprint)),
      FpMapWF m → FpMapWF (l.foldl (fun m fp => mapSet m fp.name fp) m) := by
    intro l
    induction l with
    | nil => intro m hm; exact hm
    | cons fp fps ih =>
      intro m hm
      exact ih _ (fpMapWF_mapSet m fp.name fp rfl hm)
  exact hgen data.fingerprints s.fingerprints h

theorem import_foldl_fresh :
    ∀ (l : List (String × ElementFingerprint)) (acc : List (String × ElementFingerprint)),
      (∀ k ∈ l.map (fun p => p.1), k ∉ acc.map (fun p => p.1)) →
      (l.map (fun p => p.1)).Nodup →
      (∀ p ∈ l, p.2.name = p.1) →
      (l.map (fun p => p.2)).foldl (fun m fp => mapSet m fp.name fp) acc = acc ++ l := by
  intro l
  induction l with
  | nil => intro acc _ _ _; simp
  | cons p ps ih =>
    intro acc hfresh hnodup hnames
    simp only [List.map_cons, List.foldl_cons]
    rw [hnames p (List.mem_cons_self p ps),
      mapSet_append_of_not_mem acc p.1 p.2
        (hfresh p.1 (by simp))]
    have hfresh' : ∀ k ∈ ps.map (fun q => q.1), k ∉ (acc ++ [(p.1, p.2)]).map (fun q => q.1) := by
      intro k hk
      simp only [List.map_append, List.mem_append, List.map_cons, List.map_nil,
        List.mem_singleton, not_or]
      refine ⟨hfresh k (by simp [hk]), ?_⟩
      intro hkp
      rw [List.map_cons] at hnodup
      exact (List.nodup_cons.mp hnodup).1 (hkp ▸ hk)
    have := ih (acc ++ [(p.1, p.2)]) hfresh'
      (by rw [List.map_cons] at hnodup; exact (List.nodup_cons.mp hnodup).2)
      (fun q hq => hnames q (List.mem_cons_of_mem p hq))
    rw [this, List.append_assoc]
    simp

/-- C10: importing into an empty store the snapshot produced by export
restores the store exactly: the fingerprint map (each name to its
fingerprint, in order) and the healing-event sequence are those of the
original store.  The two hypotheses are the store invariant (distinct
keys, each entry keyed by its fingerprint's name), which every reachable
store satisfies (`storeWF_emptyStore`, `storeWF_saveFingerprint`,
`storeWF_recordHealingEvent`, `storeWF_importStore`). -/
theorem claim_C10_export_import_roundtrip (s : StoreState)
    (h1 : (s.fingerprints.map (fun p => p.1)).Nodup)
    (h2 : ∀ p ∈ s.fingerprints, p.2.name = p.1) :
    importStore emptyStore (exportStore s) = s := by
  unfold importStore exportStore emptyStore getAllFingerprints getHealingEvents
  cases s with
  | mk fps evs =>
    simp only
    congr 1
    have := import_foldl_fresh fps [] (by simp) h1 h2
    simpa using this

/-- C10 witness: round-trip on a concrete two-fingerprint store with one
recorded event. -/
theorem claim_C10_export_import_roundtrip_witness :
    importStore emptyStore (exportStore wStoreC10) = wStoreC10 :=
  claim_C10_export_import_roundtrip wStoreC10 (by decide) (by decide)
